import Mathlib

/-!
Verification of the `@lickd/aws-s3` wrapper (`src/index.ts`).

The development shallowly embeds the ranged-download loop of
`S3.downloadObject`, its content-range parser `getRangeAndLength`, the
completion predicate `isComplete`, and the single-shot operation wrappers
(`headObject`, `getObject`, `getObjectString`, `getByteArray`, `putObject`,
`updateObjectMetadata`, `handleError`).

JavaScript numbers are modelled as `Option Int`: the values this code
manipulates are integral, and `none` models `NaN` (produced by `parseInt`
on a non-numeric string and propagated by arithmetic; `NaN === x` is
false for every `x`).  Strings handled by the range parser are modelled as
`List Char`; `String.prototype.split` with a one-character separator is
embedded as `splitOnChar`, and `parseInt` as `jsParseInt`.
-/

/-- A JavaScript number as used by this code: an integer, or `none` for NaN. -/
abbrev JSNum := Option Int

/-- JS `+` on numbers: NaN propagates. -/
def jadd : JSNum → JSNum → JSNum
  | some a, some b => some (a + b)
  | _, _ => none

/-- JS `-` on numbers: NaN propagates. -/
def jsub : JSNum → JSNum → JSNum
  | some a, some b => some (a - b)
  | _, _ => none

/-- JS `===` on numbers: NaN compares unequal to everything, itself included. -/
def jeq : JSNum → JSNum → Bool
  | some a, some b => a == b
  | _, _ => false

/-- The decimal digit characters, used to model JS number-to-string conversion. -/
def digitChar : Nat → Char
  | 0 => '0' | 1 => '1' | 2 => '2' | 3 => '3' | 4 => '4'
  | 5 => '5' | 6 => '6' | 7 => '7' | 8 => '8' | _ => '9'

/-- Numeric value of a digit character. -/
def charVal (c : Char) : Nat := c.toNat - 48

/-- Value of a big-endian digit string, as accumulated by `parseInt`. -/
def digitsToNat (ds : List Char) : Nat :=
  ds.foldl (fun a c => 10 * a + charVal c) 0

/-- Fuel-driven decimal rendering of a natural number (most significant digit
first).  The fuel argument makes the recursion structural; `natChars` supplies
enough fuel. -/
def natCharsGo : Nat → Nat → List Char
  | 0, n => [digitChar (n % 10)]
  | f + 1, n =>
    if n < 10 then [digitChar n]
    else natCharsGo f (n / 10) ++ [digitChar (n % 10)]

/-- Decimal rendering of a natural number, modelling JS number-to-string. -/
def natChars (n : Nat) : List Char := natCharsGo n n

/-- Decimal rendering of an integer, modelling JS number-to-string. -/
def intChars (i : Int) : List Char :=
  if i < 0 then '-' :: natChars (-i).toNat else natChars i.toNat

/-- JS `String.prototype.split` with a one-character separator: splits on each
occurrence, keeping empty pieces, and returns `[""]` on the empty string. -/
def splitOnChar (sep : Char) : List Char → List (List Char)
  | [] => [[]]
  | c :: rest =>
    if c = sep then [] :: splitOnChar sep rest
    else
      match splitOnChar sep rest with
      | [] => [[c]]
      | g :: gs => (c :: g) :: gs

/-- JS `parseInt` on a string: skip leading spaces, read an optional sign, then
a maximal run of decimal digits; NaN (`none`) when no digit is read. -/
def jsParseInt (cs : List Char) : JSNum :=
  let cs2 := cs.dropWhile (fun c => c = ' ')
  let signAndRest : Bool × List Char :=
    match cs2 with
    | c :: rest =>
      if c = '-' then (true, rest)
      else if c = '+' then (false, rest)
      else (false, cs2)
    | [] => (false, cs2)
  let ds := signAndRest.2.takeWhile Char.isDigit
  if ds = [] then none
  else
    let v : Int := digitsToNat ds
    some (if signAndRest.1 then -v else v)

/-- JS `parseInt` applied to a possibly-undefined string: `parseInt(undefined)`
parses the word "undefined" and is NaN. -/
def jsParseIntOpt : Option (List Char) → JSNum
  | none => none
  | some cs => jsParseInt cs

/-- The loop state of `downloadObject`: the object destructured from a parsed
content-range header (`{ start, end, length }`); `end` is `end_` because `end`
is reserved in Lean. -/
structure RangeAndLength where
  start : JSNum
  end_ : JSNum
  length : JSNum
deriving DecidableEq

/-- `getRangeAndLength` from `downloadObject`: split the content-range string
on "/" into range and length, split the range on "-" into start and end, and
`parseInt` each piece (an absent piece is `undefined`, parsing to NaN). -/
def getRangeAndLength (contentRange : List Char) : RangeAndLength :=
  let parts := splitOnChar '/' contentRange
  let rangeParts := splitOnChar '-' (parts.getD 0 [])
  { start := jsParseIntOpt (rangeParts.get? 0)
    end_ := jsParseIntOpt (rangeParts.get? 1)
    length := jsParseIntOpt (parts.get? 1) }

/-- `isComplete` from `downloadObject`: `end === length - 1`. -/
def isComplete (end_ length : JSNum) : Bool := jeq end_ (jsub length (some 1))

/-- `S3.ONE_MB = 1024 * 1024`, as a natural number. -/
def oneMB : Nat := 1024 * 1024

/-- `S3.ONE_MB` as the integer used in the loop's window arithmetic. -/
def ONE_MB : Int := oneMB

/-- The relevant part of a successful ranged `GetObjectCommand` response: the
`ContentRange` header (possibly absent) and the `Body` bytes (possibly
absent). -/
structure FetchResponse where
  ContentRange : Option (List Char)
  Body : Option (List Nat)
deriving DecidableEq

/-- The Range Fetch collaborator: `getObjectRange(start, end)` either throws
(transport failure) or returns a response. -/
abbrev Fetch := JSNum → JSNum → Except Unit FetchResponse

/-- An observable interaction with the write stream (the Sink collaborator):
a `write(bytes)` call (the argument is `undefined` when the response body was
absent), a `finalize` (`stream.end()`), or a `discard` (cleanup of the partial
artifact — present in the event alphabet so its absence can be stated; no code
path of `downloadObject` produces it). -/
inductive SinkEv where
  | write (bytes : Option (List Nat))
  | finalize
  | discard
deriving DecidableEq

/-- How a `downloadObject` call ends: normal return, a thrown error
(rethrown through `handleError`), or — a fuel artifact — the loop still
running when the modelling fuel runs out. -/
inductive Outcome where
  | ok
  | errored
  | diverged
deriving DecidableEq

/-- The observable result of a `downloadObject` call: the range windows it
requested, the sink events it produced, and how it ended. -/
structure LoopResult where
  fetches : List (JSNum × JSNum)
  events : List SinkEv
  outcome : Outcome
deriving DecidableEq

/-- The `while (!isComplete(...))` loop of `downloadObject`: compute the next
window `{ start: end + 1, end: end + ONE_MB }`, issue the range fetch, write
`Body?.transformToByteArray()` to the stream, and replace the state with
`getRangeAndLength(ContentRange || "")`.  A thrown fetch ends the call with an
error; `fuel` bounds the number of iterations the model unfolds. -/
def downloadLoop (fetch : Fetch) : Nat → RangeAndLength → LoopResult
  | 0, r =>
    if isComplete r.end_ r.length then ⟨[], [], .ok⟩ else ⟨[], [], .diverged⟩
  | fuel + 1, r =>
    if isComplete r.end_ r.length then ⟨[], [], .ok⟩
    else
      let nextStart := jadd r.end_ (some 1)
      let nextEnd := jadd r.end_ (some ONE_MB)
      match fetch nextStart nextEnd with
      | .error _ => ⟨[(nextStart, nextEnd)], [], .errored⟩
      | .ok resp =>
        let rest := downloadLoop fetch fuel (getRangeAndLength (resp.ContentRange.getD []))
        ⟨(nextStart, nextEnd) :: rest.fetches, .write resp.Body :: rest.events, rest.outcome⟩

/-- `let rangeAndLength = { start: -1, end: -1, length: -1 }`. -/
def initialRangeAndLength : RangeAndLength := ⟨some (-1), some (-1), some (-1)⟩

/-- `S3.downloadObject` (primary variant, `src/index.ts` lines 105-163): run
the loop from the initial state; on success or error the stream is left
untouched (no `end()`, no cleanup). -/
def downloadObject (fetch : Fetch) (fuel : Nat) : LoopResult :=
  downloadLoop fetch fuel initialRangeAndLength

/-- `S3.downloadObject` (variant with `finally { stream.end() }`): identical
loop, but every terminating exit path additionally ends the stream. -/
def downloadObjectFin (fetch : Fetch) (fuel : Nat) : LoopResult :=
  let r := downloadObject fetch fuel
  if r.outcome = .diverged then r else ⟨r.fetches, r.events ++ [.finalize], r.outcome⟩

/-- The bytes a list of sink events appends to the file, in order. -/
def writesBytes : List SinkEv → List Nat
  | [] => []
  | .write (some bs) :: rest => bs ++ writesBytes rest
  | _ :: rest => writesBytes rest

/-- The bytes a `downloadObject` call wrote to the sink, in order. -/
def writtenBytes (r : LoopResult) : List Nat := writesBytes r.events

/-- Whether a sink event is terminal (finalize or discard). -/
def isTerminalEvent : SinkEv → Bool
  | .finalize => true
  | .discard => true
  | .write _ => false

/-- The content-range string a conforming server sends: `"start-end/length"`
with the actual inclusive span delivered and the true total length. -/
def crChars (s e l : Int) : List Char :=
  intChars s ++ '-' :: (intChars e ++ '/' :: intChars l)

/-- A conforming Range Fetch collaborator serving the fixed object `data`:
within bounds it delivers the bytes from the requested start to the requested
end clamped to the true object end, and reports the delivered inclusive span
plus the true total length in the content-range header (for the empty object
the delivered span is empty and reported as `0--1/0`); anything else —
including a NaN range — is a service error. -/
def conformingFetch (data : List Nat) : Fetch
  | some s, some e =>
    let L : Int := data.length
    if 0 ≤ s ∧ s ≤ e ∧ (s < L ∨ (L = 0 ∧ s = 0)) then
      let aEnd : Int := min e (L - 1)
      .ok ⟨some (crChars s aEnd L), some ((data.drop s.toNat).take (aEnd + 1 - s).toNat)⟩
    else .error ()
  | _, _ => .error ()

/-- ⌈L / ONE_MB⌉, the chunk count of an object of length `L ≥ 1`. -/
def numFetches (L : Nat) : Nat := (L + oneMB - 1) / oneMB

/-- The range windows the loop requests from offset `p` onwards: the `k`-th is
`[p + k·ONE_MB, p + k·ONE_MB + (ONE_MB − 1)]`. -/
def chunkWindows (p n : Nat) : List (JSNum × JSNum) :=
  (List.range n).map fun (k : Nat) =>
    (some ((p : Int) + (k : Int) * ONE_MB), some ((p : Int) + (k : Int) * ONE_MB + (ONE_MB - 1)))

/-- The sink writes the loop performs on `data` from offset `p` onwards: the
`k`-th writes the chunk of `data` starting at `p + k·ONE_MB`. -/
def chunkWrites (data : List Nat) (p n : Nat) : List SinkEv :=
  (List.range n).map fun k =>
    .write (some ((data.drop (p + k * oneMB)).take oneMB))

/-- A thrown JavaScript value as the wrapper distinguishes them: a recognized
`S3ServiceException` (with its exception name, preserving its identity/type,
and its mutable `message`), a plain `Error`, or a non-`Error` value. -/
inductive JsError where
  | s3ServiceException (name message : String)
  | error (message : String)
  | nonError (tag : String)
deriving DecidableEq

/-- Whether a thrown value is `instanceof S3ServiceException`. -/
def isS3ServiceException : JsError → Bool
  | .s3ServiceException _ _ => true
  | _ => false

/-- `S3.handleError`: a recognized `S3ServiceException` is returned itself
with its message overwritten by the descriptive message; any other thrown
value is replaced by a new generic `Error` carrying the message. -/
def handleError : JsError → String → JsError
  | .s3ServiceException name _, message => .s3ServiceException name message
  | _, message => .error message

/-- The `Body` of a `GetObjectCommandOutput`: a streaming blob, observed
through `transformToString` / `transformToByteArray`. -/
structure StreamingBody where
  asString : String
  asBytes : List Nat
deriving DecidableEq

/-- The fields of `GetObjectCommandOutput` this wrapper reads: `Body` and
`ContentLength`, each possibly undefined. -/
structure GetObjectCommandOutput where
  Body : Option StreamingBody
  ContentLength : Option Int
deriving DecidableEq

/-- A `HeadObjectCommandOutput`, passed through unchanged by `headObject`. -/
structure HeadObjectCommandOutput where
  ContentLength : Option Int
deriving DecidableEq

/-- JS falsiness of a possibly-undefined number: `undefined` and `0` are
falsy. -/
def jsFalsyNum : Option Int → Bool
  | none => true
  | some n => n == 0

/-- `S3.headObject`: send the `HeadObjectCommand` (its outcome is the `send`
argument) and return the response; on failure rethrow through `handleError`
with a message naming bucket and key. -/
def headObject (bucket key : String) (send : Except JsError HeadObjectCommandOutput) :
    Except JsError HeadObjectCommandOutput :=
  match send with
  | .ok response => .ok response
  | .error e =>
    .error (handleError e
      ("failed to retrieve head of key \x27" ++ key ++ "\x27 in bucket \x27" ++ bucket ++ "\x27"))

/-- `S3.getObject`: send the `GetObjectCommand` and return the response; on
failure rethrow through `handleError` with a message naming bucket and key. -/
def getObject (bucket key : String) (send : Except JsError GetObjectCommandOutput) :
    Except JsError GetObjectCommandOutput :=
  match send with
  | .ok response => .ok response
  | .error e =>
    .error (handleError e
      ("failed to get key \x27" ++ key ++ "\x27 from bucket \x27" ++ bucket ++ "\x27"))

/-- `S3.getObjectString`: over the `getObject` result, throw
`Error("object body was undefined")` when `!object.Body || !object.ContentLength`,
else return `object.Body.transformToString()`. -/
def getObjectString (getResult : Except JsError GetObjectCommandOutput) :
    Except JsError String :=
  match getResult with
  | .error e => .error e
  | .ok object =>
    match object.Body, jsFalsyNum object.ContentLength with
    | some body, false => .ok body.asString
    | _, _ => .error (.error "object body was undefined")

/-- `S3.getByteArray`: over the `getObject` result, throw
`Error("object body was undefined")` when `!object.Body || !object.ContentLength`,
else return `object.Body.transformToByteArray()`. -/
def getByteArray (getResult : Except JsError GetObjectCommandOutput) :
    Except JsError (List Nat) :=
  match getResult with
  | .error e => .error e
  | .ok object =>
    match object.Body, jsFalsyNum object.ContentLength with
    | some body, false => .ok body.asBytes
    | _, _ => .error (.error "object body was undefined")

/-- `S3.putObject`: send the `PutObjectCommand`; on failure rethrow through
`handleError` with a message naming bucket and key. -/
def putObject (bucket key body : String) (send : Except JsError Unit) :
    Except JsError Unit :=
  match send with
  | .ok _ => .ok ()
  | .error e =>
    .error (handleError e
      ("failed to put key \x27" ++ key ++ "\x27 in bucket \x27" ++ bucket ++ "\x27"))

/-- The fields of the `CopyObjectCommand` built by `updateObjectMetadata`. -/
structure CopyObjectCommandInput where
  Bucket : String
  Key : String
  CopySource : String
  MetadataDirective : String
  Metadata : List (String × String)
deriving DecidableEq

/-- The `CopyObjectCommand` input constructed by `S3.updateObjectMetadata`:
a self-copy (`CopySource: [bucket, key].join("/")`) with
`MetadataDirective: "REPLACE"` and the supplied metadata. -/
def updateObjectMetadataCommand (bucket key : String)
    (metadata : List (String × String)) : CopyObjectCommandInput :=
  { Bucket := bucket
    Key := key
    CopySource := String.intercalate "/" [bucket, key]
    MetadataDirective := "REPLACE"
    Metadata := metadata }

/-- `S3.updateObjectMetadata`: send the constructed `CopyObjectCommand`; on
failure rethrow through `handleError` with a message naming bucket and key. -/
def updateObjectMetadata (bucket key : String) (metadata : List (String × String))
    (send : CopyObjectCommandInput → Except JsError Unit) : Except JsError Unit :=
  match send (updateObjectMetadataCommand bucket key metadata) with
  | .ok _ => .ok ()
  | .error e =>
    .error (handleError e
      ("failed to update metadata for key \x27" ++ key ++ "\x27 in bucket \x27" ++ bucket ++ "\x27"))

/-- Models the external copy operation's metadata semantics (AWS S3
`CopyObject`): with `MetadataDirective: "REPLACE"` the metadata supplied in
the command replaces the stored object metadata wholesale; otherwise the
existing metadata is kept. -/
def applyCopyMetadataDirective (existing : List (String × String))
    (cmd : CopyObjectCommandInput) : List (String × String) :=
  if cmd.MetadataDirective = "REPLACE" then cmd.Metadata else existing

/-- Whether a wrapped call failed (threw). -/
def isErr {α : Type} : Except JsError α → Bool
  | .error _ => true
  | .ok _ => false

/-! ### Helper lemmas: digits, rendering, splitting, parsing -/

theorem digitChar_isDigit (d : Nat) : (digitChar d).isDigit = true := by
  unfold digitChar
  split <;> decide

theorem charVal_digitChar (d : Nat) (h : d < 10) : charVal (digitChar d) = d := by
  interval_cases d <;> decide

theorem digitsToNat_append_single (ds : List Char) (c : Char) :
    digitsToNat (ds ++ [c]) = 10 * digitsToNat ds + charVal c := by
  simp [digitsToNat, List.foldl_append]

theorem natCharsGo_ne_nil (f n : Nat) : natCharsGo f n ≠ [] := by
  cases f with
  | zero => simp [natCharsGo]
  | succ f =>
    by_cases h : n < 10 <;> simp [natCharsGo, h]

theorem natCharsGo_isDigit (f : Nat) : ∀ n c, c ∈ natCharsGo f n → c.isDigit = true := by
  induction f with
  | zero =>
    intro n c hc
    simp [natCharsGo] at hc
    simp [hc, digitChar_isDigit]
  | succ f ih =>
    intro n c hc
    by_cases h : n < 10
    · simp [natCharsGo, h] at hc
      simp [hc, digitChar_isDigit]
    · simp [natCharsGo, h] at hc
      rcases hc with hc | hc
      · exact ih _ _ hc
      · simp [hc, digitChar_isDigit]

theorem natCharsGo_val (f : Nat) : ∀ n, n ≤ f → digitsToNat (natCharsGo f n) = n := by
  induction f with
  | zero =>
    intro n hn
    interval_cases n
    decide
  | succ f ih =>
    intro n hn
    by_cases h : n < 10
    · have : digitsToNat [digitChar n] = n := by
        simp [digitsToNat, charVal_digitChar n h]
      simpa [natCharsGo, h] using this
    · have hdiv : n / 10 ≤ f := by
        have h1 : n / 10 < n := Nat.div_lt_self (by omega) (by omega)
        omega
      rw [natCharsGo, if_neg h, digitsToNat_append_single, ih _ hdiv,
        charVal_digitChar _ (Nat.mod_lt n (by omega))]
      omega

theorem natChars_ne_nil (n : Nat) : natChars n ≠ [] := natCharsGo_ne_nil n n

theorem natChars_isDigit (n : Nat) : ∀ c ∈ natChars n, c.isDigit = true :=
  fun c hc => natCharsGo_isDigit n n c hc

theorem natChars_val (n : Nat) : digitsToNat (natChars n) = n :=
  natCharsGo_val n n le_rfl

theorem isDigit_ne (c : Char) (h : c.isDigit = true) :
    c ≠ '-' ∧ c ≠ '/' ∧ c ≠ ' ' ∧ c ≠ '+' := by
  refine ⟨?_, ?_, ?_, ?_⟩ <;> (rintro rfl; exact absurd h (by decide))

theorem splitOnChar_of_not_mem (sep : Char) (cs : List Char) (h : sep ∉ cs) :
    splitOnChar sep cs = [cs] := by
  induction cs with
  | nil => simp [splitOnChar]
  | cons c rest ih =>
    simp at h
    rw [splitOnChar, if_neg (by tauto), ih (by tauto)]

theorem splitOnChar_append (sep : Char) (a b : List Char) (h : sep ∉ a) :
    splitOnChar sep (a ++ sep :: b) = a :: splitOnChar sep b := by
  induction a with
  | nil =>
    simp [splitOnChar]
  | cons c rest ih =>
    simp at h
    rw [List.cons_append, splitOnChar, if_neg (by tauto), ih (by tauto)]

theorem takeWhile_all (p : Char → Bool) (cs : List Char) (h : ∀ c ∈ cs, p c = true) :
    cs.takeWhile p = cs := by
  induction cs with
  | nil => rfl
  | cons c rest ih =>
    simp at h
    rw [List.takeWhile_cons, if_pos (by tauto), ih (by tauto)]

theorem jsParseInt_digits (cs : List Char) (hne : cs ≠ [])
    (hd : ∀ c ∈ cs, c.isDigit = true) :
    jsParseInt cs = some ((digitsToNat cs : Int)) := by
  obtain ⟨c, rest, rfl⟩ : ∃ c rest, cs = c :: rest := by
    cases cs with
    | nil => exact absurd rfl hne
    | cons c rest => exact ⟨c, rest, rfl⟩
  have hc : c.isDigit = true := hd c (by simp)
  obtain ⟨h1, h2, h3, h4⟩ := isDigit_ne c hc
  have hdw : (c :: rest).dropWhile (fun x => x = ' ') = c :: rest := by
    simp [List.dropWhile_cons, h3]
  simp only [jsParseInt, hdw, if_neg h1, if_neg h4]
  rw [takeWhile_all _ _ hd]
  simp

theorem notMem_of_isDigit (sep : Char) (cs : List Char)
    (hd : ∀ c ∈ cs, c.isDigit = true) (hsep : sep.isDigit = false) : sep ∉ cs := by
  intro hmem
  have := hd sep hmem
  rw [hsep] at this
  exact absurd this (by simp)

theorem intChars_ofNat (n : Nat) : intChars (n : Int) = natChars n := by
  rw [intChars, if_neg (by omega)]
  simp

theorem getRangeAndLength_crChars (s e l : Nat) :
    getRangeAndLength (crChars (s : Int) (e : Int) (l : Int)) =
      ⟨some (s : Int), some (e : Int), some (l : Int)⟩ := by
  have hs := natChars_isDigit s
  have he := natChars_isDigit e
  have hl := natChars_isDigit l
  have hslash : ∀ m : Nat, ('/' : Char) ∉ natChars m := fun m =>
    notMem_of_isDigit _ _ (natChars_isDigit m) (by decide)
  have hdash : ∀ m : Nat, ('-' : Char) ∉ natChars m := fun m =>
    notMem_of_isDigit _ _ (natChars_isDigit m) (by decide)
  have hparse : ∀ m : Nat, jsParseInt (natChars m) = some ((m : Int)) := by
    intro m
    rw [jsParseInt_digits _ (natChars_ne_nil m) (natChars_isDigit m), natChars_val]
  rw [crChars, intChars_ofNat, intChars_ofNat, intChars_ofNat]
  have hassoc :
      natChars s ++ '-' :: (natChars e ++ '/' :: natChars l) =
        (natChars s ++ '-' :: natChars e) ++ '/' :: natChars l := by
    simp
  simp only [getRangeAndLength]
  rw [hassoc]
  rw [splitOnChar_append '/' _ _ (by
    simp only [List.mem_append, List.mem_cons]
    rintro (h | h | h)
    · exact hslash s h
    · exact absurd h (by decide)
    · exact hslash e h)]
  rw [splitOnChar_of_not_mem '/' _ (hslash l)]
  simp only [List.getD_cons_zero]
  rw [splitOnChar_append '-' _ _ (hdash s), splitOnChar_of_not_mem '-' _ (hdash e)]
  simp [jsParseIntOpt, hparse]

/-! ### Helper lemmas: the download loop against a conforming collaborator -/

theorem downloadLoop_of_complete (fetch : Fetch) (fuel : Nat) (r : RangeAndLength)
    (h : isComplete r.end_ r.length = true) :
    downloadLoop fetch fuel r = ⟨[], [], .ok⟩ := by
  cases fuel with
  | zero => rw [downloadLoop, if_pos h]
  | succ f => rw [downloadLoop, if_pos h]

theorem chunkWindows_zero (p : Nat) : chunkWindows p 0 = [] := rfl

theorem chunkWrites_zero (data : List Nat) (p : Nat) : chunkWrites data p 0 = [] := rfl

theorem chunkWindows_succ (p n : Nat) :
    chunkWindows p (n + 1) =
      (some (p : Int), some ((p : Int) + (ONE_MB - 1))) :: chunkWindows (p + oneMB) n := by
  unfold chunkWindows
  rw [List.range_succ_eq_map]
  simp only [List.map_cons, List.map_map, Nat.cast_zero, zero_mul, add_zero]
  refine congrArg₂ _ rfl (List.map_congr_left ?_)
  intro k _
  have hcast : ((p + oneMB : Nat) : Int) = (p : Int) + ONE_MB := by
    rw [ONE_MB]
    push_cast
    ring
  simp only [Function.comp_apply, Prod.mk.injEq, Option.some.injEq, hcast]
  constructor <;> (push_cast; ring)

theorem chunkWrites_succ (data : List Nat) (p n : Nat) :
    chunkWrites data p (n + 1) =
      .write (some ((data.drop p).take oneMB)) :: chunkWrites data (p + oneMB) n := by
  unfold chunkWrites
  rw [List.range_succ_eq_map]
  simp only [List.map_cons, List.map_map, zero_mul, add_zero]
  refine congrArg₂ _ rfl (List.map_congr_left ?_)
  intro k _
  simp only [Function.comp_apply, SinkEv.write.injEq, Option.some.injEq]
  have : p + (k + 1) * oneMB = p + oneMB + k * oneMB := by ring
  rw [this]

theorem downloadLoop_conforming (data : List Nat) :
    ∀ (n p : Nat) (r : RangeAndLength) (fuel : Nat),
      n + 1 ≤ fuel →
      p < data.length →
      data.length ≤ p + (n + 1) * oneMB →
      p + n * oneMB < data.length →
      r.end_ = some ((p : Int) - 1) →
      isComplete r.end_ r.length = false →
      downloadLoop (conformingFetch data) fuel r =
        ⟨chunkWindows p (n + 1), chunkWrites data p (n + 1), .ok⟩ := by
  intro n
  induction n with
  | zero =>
    intro p r fuel hf hp hub hlb hend hnc
    obtain ⟨f, rfl⟩ : ∃ f, fuel = f + 1 := ⟨fuel - 1, by omega⟩
    have h1 : jadd r.end_ (some 1) = some (p : Int) := by
      rw [hend]; simp [jadd]
    have h2 : jadd r.end_ (some ONE_MB) = some ((p : Int) - 1 + ONE_MB) := by
      rw [hend]; simp [jadd]
    have hCpos : 0 < oneMB := by norm_num [oneMB]
    have hcond : (0 : Int) ≤ (p : Int) ∧ (p : Int) ≤ (p : Int) - 1 + ONE_MB ∧
        ((p : Int) < (data.length : Int) ∨ ((data.length : Int) = 0 ∧ (p : Int) = 0)) := by
      refine ⟨by omega, ?_, Or.inl (by omega)⟩
      rw [ONE_MB]
      omega
    have haEnd : min ((p : Int) - 1 + ONE_MB) ((data.length : Int) - 1) =
        ((data.length - 1 : Nat) : Int) := by
      rw [ONE_MB, min_eq_right (by omega)]
      omega
    have hfetch : conformingFetch data (some (p : Int)) (some ((p : Int) - 1 + ONE_MB)) =
        .ok ⟨some (crChars (p : Int) ((data.length - 1 : Nat) : Int) ((data.length : Nat) : Int)),
             some ((data.drop p).take (data.length - p))⟩ := by
      rw [conformingFetch, if_pos hcond, haEnd]
      have ht : (((data.length - 1 : Nat) : Int) + 1 - (p : Int)).toNat = data.length - p := by
        omega
      have hs : ((p : Int)).toNat = p := by omega
      simp only [ht, hs]
    have hparse : getRangeAndLength (crChars (p : Int) ((data.length - 1 : Nat) : Int)
        ((data.length : Nat) : Int)) =
        ⟨some ((p : Nat) : Int), some ((data.length - 1 : Nat) : Int),
         some ((data.length : Nat) : Int)⟩ := getRangeAndLength_crChars p (data.length - 1) data.length
    have hcomp : isComplete (some ((data.length - 1 : Nat) : Int)) (some ((data.length : Nat) : Int)) = true := by
      simp only [isComplete, jsub, jeq, beq_iff_eq]
      omega
    rw [downloadLoop]
    rw [if_neg (by simp [hnc])]
    simp only [h1, h2, hfetch, Option.getD_some, hparse]
    rw [downloadLoop_of_complete _ _ _ hcomp]
    have hwin : chunkWindows p 1 = [(some (p : Int), some ((p : Int) - 1 + ONE_MB))] := by
      rw [chunkWindows_succ, chunkWindows_zero]
      have : (p : Int) + (ONE_MB - 1) = (p : Int) - 1 + ONE_MB := by ring
      rw [this]
    have hwr : chunkWrites data p 1 = [.write (some ((data.drop p).take (data.length - p)))] := by
      rw [chunkWrites_succ, chunkWrites_zero]
      have hlen : (data.drop p).length ≤ oneMB := by
        rw [List.length_drop]
        omega
      have h3 : (data.drop p).take oneMB = data.drop p := List.take_of_length_le hlen
      have h4 : (data.drop p).take (data.length - p) = data.drop p :=
        List.take_of_length_le (by rw [List.length_drop])
      rw [h3, h4]
    rw [hwin, hwr]
  | succ n ih =>
    intro p r fuel hf hp hub hlb hend hnc
    obtain ⟨f, rfl⟩ : ∃ f, fuel = f + 1 := ⟨fuel - 1, by omega⟩
    have h1 : jadd r.end_ (some 1) = some (p : Int) := by
      rw [hend]; simp [jadd]
    have h2 : jadd r.end_ (some ONE_MB) = some ((p : Int) - 1 + ONE_MB) := by
      rw [hend]; simp [jadd]
    have hCpos : 0 < oneMB := by norm_num [oneMB]
    have hnext : p + oneMB < data.length := by
      have : p + oneMB ≤ p + (n + 1) * oneMB := by
        have : oneMB ≤ (n + 1) * oneMB := Nat.le_mul_of_pos_left _ (by omega)
        omega
      omega
    have hcond : (0 : Int) ≤ (p : Int) ∧ (p : Int) ≤ (p : Int) - 1 + ONE_MB ∧
        ((p : Int) < (data.length : Int) ∨ ((data.length : Int) = 0 ∧ (p : Int) = 0)) := by
      refine ⟨by omega, ?_, Or.inl (by omega)⟩
      rw [ONE_MB]
      omega
    have haEnd : min ((p : Int) - 1 + ONE_MB) ((data.length : Int) - 1) =
        ((p + oneMB - 1 : Nat) : Int) := by
      rw [ONE_MB, min_eq_left (by omega)]
      omega
    have hfetch : conformingFetch data (some (p : Int)) (some ((p : Int) - 1 + ONE_MB)) =
        .ok ⟨some (crChars (p : Int) ((p + oneMB - 1 : Nat) : Int) ((data.length : Nat) : Int)),
             some ((data.drop p).take oneMB)⟩ := by
      rw [conformingFetch, if_pos hcond, haEnd]
      have ht : (((p + oneMB - 1 : Nat) : Int) + 1 - (p : Int)).toNat = oneMB := by
        omega
      have hs : ((p : Int)).toNat = p := by omega
      simp only [ht, hs]
    have hparse : getRangeAndLength (crChars (p : Int) ((p + oneMB - 1 : Nat) : Int)
        ((data.length : Nat) : Int)) =
        ⟨some ((p : Nat) : Int), some ((p + oneMB - 1 : Nat) : Int),
         some ((data.length : Nat) : Int)⟩ := getRangeAndLength_crChars p (p + oneMB - 1) data.length
    have hcomp : isComplete (some ((p + oneMB - 1 : Nat) : Int)) (some ((data.length : Nat) : Int)) = false := by
      simp only [isComplete, jsub, jeq, beq_eq_false_iff_ne, ne_eq]
      omega
    have hrec := ih (p + oneMB)
      ⟨some ((p : Nat) : Int), some ((p + oneMB - 1 : Nat) : Int), some ((data.length : Nat) : Int)⟩
      f (by omega) hnext
      (by simp only [add_one_mul] at hub ⊢; omega)
      (by simp only [add_one_mul] at hlb ⊢; omega)
      (by simp only [Option.some.injEq]; omega)
      hcomp
    rw [downloadLoop]
    rw [if_neg (by simp [hnc])]
    simp only [h1, h2, hfetch, Option.getD_some, hparse, hrec]
    conv_rhs => rw [chunkWindows_succ, chunkWrites_succ]
    have hW : (p : Int) + (ONE_MB - 1) = (p : Int) - 1 + ONE_MB := by ring
    rw [hW]

theorem downloadObject_conforming (data : List Nat) (h1 : 1 ≤ data.length)
    (fuel : Nat) (hf : numFetches data.length ≤ fuel) :
    downloadObject (conformingFetch data) fuel =
      ⟨chunkWindows 0 (numFetches data.length),
       chunkWrites data 0 (numFetches data.length), .ok⟩ := by
  have hC : 0 < oneMB := by norm_num [oneMB]
  have hsplit : data.length + oneMB - 1 = (data.length - 1) + oneMB := by omega
  have hn : numFetches data.length = (data.length - 1) / oneMB + 1 := by
    rw [numFetches, hsplit, Nat.add_div_right _ hC]
  have hdm := Nat.div_add_mod (data.length - 1) oneMB
  rw [Nat.mul_comm] at hdm
  have hmlt : (data.length - 1) % oneMB < oneMB := Nat.mod_lt _ hC
  rw [downloadObject, hn]
  exact downloadLoop_conforming data ((data.length - 1) / oneMB) 0 initialRangeAndLength fuel
    (by omega) (by omega)
    (by simp only [add_one_mul]; omega)
    (by omega)
    (by decide) (by decide)

theorem writesBytes_chunkWrites (data : List Nat) :
    ∀ (n p : Nat), data.length ≤ p + n * oneMB →
      writesBytes (chunkWrites data p n) = data.drop p := by
  intro n
  induction n with
  | zero =>
    intro p h
    rw [chunkWrites_zero]
    rw [List.drop_eq_nil_of_le (by simpa using h)]
    rfl
  | succ n ih =>
    intro p h
    rw [chunkWrites_succ]
    rw [writesBytes]
    rw [ih (p + oneMB) (by simp only [add_one_mul] at h; omega)]
    rw [← List.drop_drop]
    exact List.take_append_drop _ _

theorem length_chunkWindows (p n : Nat) : (chunkWindows p n).length = n := by
  simp [chunkWindows]

theorem downloadLoop_no_terminal (fetch : Fetch) :
    ∀ (fuel : Nat) (r : RangeAndLength),
      (downloadLoop fetch fuel r).events.filter isTerminalEvent = [] := by
  intro fuel
  induction fuel with
  | zero =>
    intro r
    rw [downloadLoop]
    by_cases h : isComplete r.end_ r.length = true
    · rw [if_pos h]
      rfl
    · rw [if_neg h]
      rfl
  | succ fuel ih =>
    intro r
    rw [downloadLoop]
    by_cases h : isComplete r.end_ r.length = true
    · rw [if_pos h]
      rfl
    · rw [if_neg h]
      cases hres : fetch (jadd r.end_ (some 1)) (jadd r.end_ (some ONE_MB)) with
      | error e => simp only [hres]; rfl
      | ok resp =>
        simp only [hres]
        show (SinkEv.write resp.Body ::
            (downloadLoop fetch fuel
              (getRangeAndLength (resp.ContentRange.getD []))).events).filter
            isTerminalEvent = []
        rw [List.filter_cons, if_neg (by simp [isTerminalEvent])]
        exact ih _

theorem downloadObject_empty (fuel : Nat) (hf : 2 ≤ fuel) :
    downloadObject (conformingFetch []) fuel =
      ⟨[(some 0, some 1048575), (none, none)], [.write (some [])], .errored⟩ := by
  obtain ⟨f, rfl⟩ : ∃ f, fuel = f + 2 := ⟨fuel - 2, by omega⟩
  have hje1 : jadd initialRangeAndLength.end_ (some 1) = some 0 := rfl
  have hje2 : jadd initialRangeAndLength.end_ (some ONE_MB) = some 1048575 := rfl
  have hfetch : conformingFetch [] (some 0) (some 1048575) =
      .ok ⟨some (crChars 0 (-1) 0), some []⟩ := rfl
  have hparse : getRangeAndLength (crChars 0 (-1) 0) = ⟨some 0, none, some 0⟩ := by decide
  rw [downloadObject, downloadLoop, if_neg (by decide)]
  simp only [hje1, hje2, hfetch, Option.getD_some, hparse]
  have hstep2 : downloadLoop (conformingFetch []) (f + 1)
      ⟨some 0, none, some 0⟩ = ⟨[(none, none)], [], .errored⟩ := by
    have hje3 : jadd (RangeAndLength.mk (some 0) none (some 0)).end_ (some 1) = none := rfl
    have hje4 : jadd (RangeAndLength.mk (some 0) none (some 0)).end_ (some ONE_MB) = none := rfl
    have hf2 : conformingFetch [] (none : JSNum) (none : JSNum) = .error () := rfl
    rw [downloadLoop, if_neg (by decide)]
    simp only [hje3, hje4, hf2]
  rw [hstep2]

theorem numFetches_mul_ge (L : Nat) (h : 1 ≤ L) : L ≤ numFetches L * oneMB := by
  have hC : 0 < oneMB := by norm_num [oneMB]
  have hdm := Nat.div_add_mod (L + oneMB - 1) oneMB
  rw [Nat.mul_comm] at hdm
  have hmlt : (L + oneMB - 1) % oneMB < oneMB := Nat.mod_lt _ hC
  rw [numFetches]
  omega

theorem downloadLoop_head_window (fetch : Fetch) (n : Nat) (r : RangeAndLength)
    (h : isComplete r.end_ r.length = false) :
    (downloadLoop fetch (n + 1) r).fetches.head? =
      some (jadd r.end_ (some 1), jadd r.end_ (some ONE_MB)) := by
  rw [downloadLoop, if_neg (by simp [h])]
  cases hres : fetch (jadd r.end_ (some 1)) (jadd r.end_ (some ONE_MB)) with
  | error e => simp only [hres]; rfl
  | ok resp => simp only [hres]; rfl

/-! ### Claims -/

/-- C1 counterexample: the claim fails at L = 0.  Served by the conforming
collaborator, the empty object's first response reports the empty span
(`0--1/0`); `getRangeAndLength` parses its `end` as NaN, the completion check
stays false, and the loop issues a second (NaN) range fetch and then errors —
it does not stop after exactly one fetch with success, as the claim requires
for L = 0. -/
theorem C1_counterexample :
    downloadObject (conformingFetch []) 3 =
      ⟨[(some 0, some 1048575), (none, none)], [.write (some [])], .errored⟩ :=
  downloadObject_empty 3 (by omega)

/-- C1 (amended): for every object of length L ≥ 1 served by the conforming
Range Fetch collaborator, `downloadObject` terminates successfully, issues
exactly ⌈L / ONE_MB⌉ range fetches — the k-th requesting the window
[k·ONE_MB, (k+1)·ONE_MB − 1] — and the bytes written to the sink are exactly
the object, in increasing offset order with no gaps and no overlaps (their
concatenation is the object).  For L = 0 the claim fails (see the
counterexample). -/
theorem C1_completion (data : List Nat) (fuel : Nat) (h1 : 1 ≤ data.length)
    (hf : numFetches data.length ≤ fuel) :
    (downloadObject (conformingFetch data) fuel).outcome = .ok ∧
    (downloadObject (conformingFetch data) fuel).fetches.length = numFetches data.length ∧
    (downloadObject (conformingFetch data) fuel).fetches =
      chunkWindows 0 (numFetches data.length) ∧
    writtenBytes (downloadObject (conformingFetch data) fuel) = data := by
  rw [downloadObject_conforming data h1 fuel hf]
  refine ⟨rfl, length_chunkWindows 0 _, rfl, ?_⟩
  show writesBytes (chunkWrites data 0 (numFetches data.length)) = data
  rw [writesBytes_chunkWrites data _ 0 (by simpa using numFetches_mul_ge data.length h1)]
  exact List.drop_zero data

/-- C1 witness: a three-byte object is downloaded in one fetch. -/
theorem C1_completion_witness :
    1 ≤ ([1, 2, 3] : List Nat).length ∧
    numFetches ([1, 2, 3] : List Nat).length ≤ 1 ∧
    ((downloadObject (conformingFetch [1, 2, 3]) 1).outcome = .ok ∧
     (downloadObject (conformingFetch [1, 2, 3]) 1).fetches.length =
       numFetches ([1, 2, 3] : List Nat).length ∧
     (downloadObject (conformingFetch [1, 2, 3]) 1).fetches =
       chunkWindows 0 (numFetches ([1, 2, 3] : List Nat).length) ∧
     writtenBytes (downloadObject (conformingFetch [1, 2, 3]) 1) = [1, 2, 3]) :=
  ⟨by decide, by decide, C1_completion [1, 2, 3] 1 (by decide) (by decide)⟩

/-- C2: evaluation of the code at the failing input (the empty object).  The
conforming response for zero delivered bytes parses to `end = NaN` (not `−1`
as the claim asserts: the parser splits the range on "-", so a negative `end`
can never be parsed), the completion check is false — so the loop does not
exit after the first fetch; it issues a second, invalid fetch and the call
errors instead of returning success. -/
theorem C2_empty_object_run :
    getRangeAndLength (crChars 0 (-1) 0) = ⟨some 0, none, some 0⟩ ∧
    isComplete (getRangeAndLength (crChars 0 (-1) 0)).end_
      (getRangeAndLength (crChars 0 (-1) 0)).length = false ∧
    downloadObject (conformingFetch []) 5 =
      ⟨[(some 0, some 1048575), (none, none)], [.write (some [])], .errored⟩ :=
  ⟨by decide, by decide, downloadObject_empty 5 (by omega)⟩

/-- C3: evaluation of the code at the failing input.  A fetch whose response
carries no content-range is not a hard failure: `parseInt` yields NaN fields,
the completion check stays false, and the loop keeps issuing further fetches
(three in three fuel steps, never terminating) — the malformed descriptor is
silently ignored, contrary to the claim that the call fails and no further
fetches are issued. -/
theorem C3_malformed_run :
    downloadObject (fun _ _ => .ok ⟨none, none⟩) 3 =
      ⟨[(some 0, some 1048575), (none, none), (none, none)],
       [.write none, .write none, .write none], .diverged⟩ := by decide

/-- C4 counterexample: a successful one-chunk download through the primary
`downloadObject` produces no finalize and no discard sink event at all —
refuting the claim that exactly one of finalize/discard is invoked on every
exit path. -/
theorem C4_counterexample :
    (downloadObject (conformingFetch [7]) 2).outcome = .ok ∧
    (downloadObject (conformingFetch [7]) 2).events = [.write (some [7])] ∧
    (downloadObject (conformingFetch [7]) 2).events.filter isTerminalEvent = [] := by
  decide

/-- C4 (amended): the primary `downloadObject` never invokes finalize or
discard on the sink, on any exit path; the variant with
`finally { stream.end() }` invokes finalize exactly once — as the last sink
event — on every terminating exit path, success and failure alike, and
discard is never invoked by either variant. -/
theorem C4_finalize_discipline (fetch : Fetch) (fuel : Nat) :
    (downloadObject fetch fuel).events.filter isTerminalEvent = [] ∧
    ((downloadObjectFin fetch fuel).outcome ≠ .diverged →
      (downloadObjectFin fetch fuel).events.filter isTerminalEvent = [.finalize] ∧
      (downloadObjectFin fetch fuel).events.getLast? = some .finalize) := by
  have hno : (downloadObject fetch fuel).events.filter isTerminalEvent = [] :=
    downloadLoop_no_terminal fetch fuel initialRangeAndLength
  refine ⟨hno, ?_⟩
  intro hdiv
  simp only [downloadObjectFin] at hdiv ⊢
  by_cases hd : (downloadObject fetch fuel).outcome = .diverged
  · rw [if_pos hd] at hdiv
    exact absurd hd hdiv
  · rw [if_neg hd]
    constructor
    · show ((downloadObject fetch fuel).events ++ [SinkEv.finalize]).filter isTerminalEvent =
        [SinkEv.finalize]
      rw [List.filter_append, hno]
      rfl
    · exact List.getLast?_concat _

/-- C4 witness: the finally variant on a terminating run ends the stream
exactly once. -/
theorem C4_finalize_discipline_witness :
    (downloadObjectFin (conformingFetch [7]) 2).outcome ≠ .diverged ∧
    (downloadObjectFin (conformingFetch [7]) 2).events.filter isTerminalEvent =
      [.finalize] :=
  ⟨by decide, ((C4_finalize_discipline (conformingFetch [7]) 2).2 (by decide)).1⟩

/-- C5: in every iteration of the download loop the requested window is
start = lastFetchedEnd + 1 and end = start + ONE_MB − 1 (so every window spans
exactly ONE_MB = 1 MiB = 1048576 bytes); in particular the first request is
for bytes [0, ONE_MB − 1]. -/
theorem C5_window_arithmetic (fetch : Fetch) (n : Nat) (r : RangeAndLength)
    (h : isComplete r.end_ r.length = false) :
    ONE_MB = 1048576 ∧
    (downloadLoop fetch (n + 1) r).fetches.head? =
      some (jadd r.end_ (some 1), jadd (jadd r.end_ (some 1)) (some (ONE_MB - 1))) ∧
    (downloadObject fetch (n + 1)).fetches.head? = some (some 0, some (ONE_MB - 1)) := by
  have hadd : ∀ s : JSNum, jadd s (some ONE_MB) = jadd (jadd s (some 1)) (some (ONE_MB - 1)) := by
    intro s
    cases s with
    | none => rfl
    | some a =>
      show some (a + ONE_MB) = some (a + 1 + (ONE_MB - 1))
      congr 1
      ring
  refine ⟨by norm_num [ONE_MB, oneMB], ?_, ?_⟩
  · rw [downloadLoop_head_window fetch n r h, hadd]
  · rw [downloadObject,
      downloadLoop_head_window fetch n initialRangeAndLength (by decide)]
    show some (some ((-1 : Int) + 1), some ((-1 : Int) + ONE_MB)) =
      some (some 0, some (ONE_MB - 1))
    have h1 : (-1 : Int) + 1 = 0 := by norm_num
    have h2 : (-1 : Int) + ONE_MB = ONE_MB - 1 := by ring
    rw [h1, h2]

/-- C5 witness: with a failing collaborator and one unit of fuel, the first
and only window requested from the initial state is [0, 1048575]. -/
theorem C5_window_arithmetic_witness :
    isComplete initialRangeAndLength.end_ initialRangeAndLength.length = false ∧
    (downloadObject (fun _ _ => .error ()) 1).fetches.head? =
      some (some 0, some (ONE_MB - 1)) :=
  ⟨by decide,
   (C5_window_arithmetic (fun _ _ => .error ()) 0 initialRangeAndLength (by decide)).2.2⟩

/-- C6: when a single-shot operation's underlying call fails, the thrown
value is rethrown through `handleError` with a descriptive message naming the
bucket and key; a recognized `S3ServiceException` is rethrown itself (name —
its identity/type — preserved, message replaced), anything else is replaced
by a newly synthesized generic `Error` carrying the message. -/
theorem C6_error_wrapping (bucket key bodyStr name origMsg m : String)
    (md : List (String × String)) (e : JsError) :
    headObject bucket key (.error e) =
      .error (handleError e
        ("failed to retrieve head of key \x27" ++ key ++ "\x27 in bucket \x27" ++ bucket ++ "\x27")) ∧
    getObject bucket key (.error e) =
      .error (handleError e
        ("failed to get key \x27" ++ key ++ "\x27 from bucket \x27" ++ bucket ++ "\x27")) ∧
    putObject bucket key bodyStr (.error e) =
      .error (handleError e
        ("failed to put key \x27" ++ key ++ "\x27 in bucket \x27" ++ bucket ++ "\x27")) ∧
    updateObjectMetadata bucket key md (fun _ => .error e) =
      .error (handleError e
        ("failed to update metadata for key \x27" ++ key ++ "\x27 in bucket \x27" ++ bucket ++ "\x27")) ∧
    handleError (.s3ServiceException name origMsg) m = .s3ServiceException name m ∧
    (isS3ServiceException e = false → handleError e m = .error m) := by
  refine ⟨rfl, rfl, rfl, rfl, rfl, ?_⟩
  cases e with
  | s3ServiceException n ms =>
    intro hfalse
    exact absurd hfalse (by simp [isS3ServiceException])
  | error ms => intro _; rfl
  | nonError t => intro _; rfl

/-- C6 witness: a non-service-exception thrown value is replaced by a generic
`Error` carrying the descriptive message. -/
theorem C6_error_wrapping_witness :
    isS3ServiceException (JsError.nonError "boom") = false ∧
    handleError (JsError.nonError "boom") "m" = JsError.error "m" :=
  ⟨rfl,
   (C6_error_wrapping "b" "k" "body" "n" "o" "m" [] (JsError.nonError "boom")).2.2.2.2.2 rfl⟩

/-- C7: `getObjectString` and `getByteArray` fail on a successful `getObject`
result exactly when the body is absent or the content length is undefined or
zero; otherwise they return the transformed body.  In particular a present
body with ContentLength 0 is rejected. -/
theorem C7_get_transforms (o : GetObjectCommandOutput) (b : StreamingBody) :
    (isErr (getObjectString (.ok o)) = true ↔
      (o.Body = none ∨ o.ContentLength = none ∨ o.ContentLength = some 0)) ∧
    (isErr (getByteArray (.ok o)) = true ↔
      (o.Body = none ∨ o.ContentLength = none ∨ o.ContentLength = some 0)) ∧
    (o.Body = some b → jsFalsyNum o.ContentLength = false →
      getObjectString (.ok o) = .ok b.asString ∧
      getByteArray (.ok o) = .ok b.asBytes) ∧
    (o.Body = some b → o.ContentLength = some 0 →
      getObjectString (.ok o) = .error (.error "object body was undefined") ∧
      getByteArray (.ok o) = .error (.error "object body was undefined")) := by
  obtain ⟨ob, cl⟩ := o
  refine ⟨?_, ?_, ?_, ?_⟩
  · cases ob with
    | none => simp [getObjectString, isErr]
    | some body' =>
      cases cl with
      | none => simp [getObjectString, isErr, jsFalsyNum]
      | some nn =>
        by_cases hn : nn = 0
        · simp [getObjectString, isErr, jsFalsyNum, hn]
        · have hb : (nn == 0) = false := beq_eq_false_iff_ne.mpr hn
          simp [getObjectString, isErr, jsFalsyNum, hb, hn]
  · cases ob with
    | none => simp [getByteArray, isErr]
    | some body' =>
      cases cl with
      | none => simp [getByteArray, isErr, jsFalsyNum]
      | some nn =>
        by_cases hn : nn = 0
        · simp [getByteArray, isErr, jsFalsyNum, hn]
        · have hb : (nn == 0) = false := beq_eq_false_iff_ne.mpr hn
          simp [getByteArray, isErr, jsFalsyNum, hb, hn]
  · intro hb hcl
    simp only at hb
    subst hb
    simp [getObjectString, getByteArray, hcl]
  · intro hb hcl
    simp only at hb hcl
    subst hb
    subst hcl
    simp [getObjectString, getByteArray, jsFalsyNum]

/-- C7 witness: a present body with ContentLength 0 is rejected. -/
theorem C7_get_transforms_witness :
    getObjectString (.ok ⟨some ⟨"x", [1]⟩, some 0⟩) =
      .error (.error "object body was undefined") :=
  ((C7_get_transforms ⟨some ⟨"x", [1]⟩, some 0⟩ ⟨"x", [1]⟩).2.2.2 rfl rfl).1

/-- C8: downloading the same unchanged object twice (a fresh sink each time,
each call running the loop to completion) produces identical sink event
sequences and hence byte-identical sink contents: the loop state is a fresh
local value per call and the run is a pure function of the collaborator's
responses. -/
theorem C8_repeat_download (data : List Nat) (f1 f2 : Nat)
    (h1 : numFetches data.length + 2 ≤ f1) (h2 : numFetches data.length + 2 ≤ f2) :
    writtenBytes (downloadObject (conformingFetch data) f1) =
      writtenBytes (downloadObject (conformingFetch data) f2) ∧
    (downloadObject (conformingFetch data) f1).events =
      (downloadObject (conformingFetch data) f2).events := by
  by_cases hL : 1 ≤ data.length
  · rw [downloadObject_conforming data hL f1 (by omega),
      downloadObject_conforming data hL f2 (by omega)]
    exact ⟨rfl, rfl⟩
  · have hz : data = [] := by
      cases data with
      | nil => rfl
      | cons a l => simp at hL
    subst hz
    rw [downloadObject_empty f1 (by omega), downloadObject_empty f2 (by omega)]
    exact ⟨rfl, rfl⟩

/-- C8 witness: two runs on a one-byte object with different fuel agree. -/
theorem C8_repeat_download_witness :
    numFetches ([9] : List Nat).length + 2 ≤ 3 ∧
    writtenBytes (downloadObject (conformingFetch [9]) 3) =
      writtenBytes (downloadObject (conformingFetch [9]) 4) :=
  ⟨by decide, (C8_repeat_download [9] 3 4 (by decide) (by decide)).1⟩

/-- C9: `updateObjectMetadata` sends a self-copy (`CopySource` is bucket and
key joined with "/") with `MetadataDirective: "REPLACE"` and the supplied
metadata, so under the copy operation's REPLACE semantics the supplied map
replaces the stored metadata wholesale, independent of the existing
metadata. -/
theorem C9_metadata_replace (bucket key : String)
    (metadata existing : List (String × String)) :
    (updateObjectMetadataCommand bucket key metadata).CopySource = bucket ++ "/" ++ key ∧
    (updateObjectMetadataCommand bucket key metadata).MetadataDirective = "REPLACE" ∧
    (updateObjectMetadataCommand bucket key metadata).Metadata = metadata ∧
    (updateObjectMetadataCommand bucket key metadata).Bucket = bucket ∧
    (updateObjectMetadataCommand bucket key metadata).Key = key ∧
    applyCopyMetadataDirective existing (updateObjectMetadataCommand bucket key metadata) =
      metadata := by
  refine ⟨rfl, rfl, rfl, rfl, rfl, ?_⟩
  rw [applyCopyMetadataDirective,
    if_pos (show (updateObjectMetadataCommand bucket key metadata).MetadataDirective =
      "REPLACE" from rfl)]
  rfl

/-- C10: a fetch response with a present content-range but an absent body is
not treated as an error: the loop invokes the sink's write with the undefined
value, records the window, and continues from the parsed content-range alone
— the run's remaining behavior is exactly that of the loop restarted on the
parsed state. -/
theorem C10_missing_body (fetch : Fetch) (n : Nat) (r : RangeAndLength) (cr : List Char)
    (hc : isComplete r.end_ r.length = false)
    (hf : fetch (jadd r.end_ (some 1)) (jadd r.end_ (some ONE_MB)) = .ok ⟨some cr, none⟩) :
    downloadLoop fetch (n + 1) r =
      ⟨(jadd r.end_ (some 1), jadd r.end_ (some ONE_MB)) ::
        (downloadLoop fetch n (getRangeAndLength cr)).fetches,
       SinkEv.write none :: (downloadLoop fetch n (getRangeAndLength cr)).events,
       (downloadLoop fetch n (getRangeAndLength cr)).outcome⟩ := by
  rw [downloadLoop, if_neg (by simp [hc])]
  simp only [hf, Option.getD_some]

/-- C10 witness: a body-less response covering the whole one-byte object
completes the download with a single `write undefined`. -/
theorem C10_missing_body_witness :
    isComplete initialRangeAndLength.end_ initialRangeAndLength.length = false ∧
    downloadLoop (fun _ _ => .ok ⟨some (crChars 0 0 1), none⟩) 2 initialRangeAndLength =
      ⟨(jadd initialRangeAndLength.end_ (some 1),
          jadd initialRangeAndLength.end_ (some ONE_MB)) ::
        (downloadLoop (fun _ _ => .ok ⟨some (crChars 0 0 1), none⟩) 1
          (getRangeAndLength (crChars 0 0 1))).fetches,
       SinkEv.write none ::
        (downloadLoop (fun _ _ => .ok ⟨some (crChars 0 0 1), none⟩) 1
          (getRangeAndLength (crChars 0 0 1))).events,
       (downloadLoop (fun _ _ => .ok ⟨some (crChars 0 0 1), none⟩) 1
          (getRangeAndLength (crChars 0 0 1))).outcome⟩ :=
  ⟨by decide,
   C10_missing_body (fun _ _ => .ok ⟨some (crChars 0 0 1), none⟩) 1
     initialRangeAndLength (crChars 0 0 1) (by decide) rfl⟩
